import Mathlib

/-!
Verification of the yamon chart-rendering / metrics-history core.

Shallow embedding of `src/yamon/chart.py` (class `ChartRenderer`), the
P-core/E-core split logic of `src/yamon/api/websocket.py` and
`src/backend/api/websocket.py`, and (modelled from the spec, since
`yamon/history.py` is not part of the available sources) the bounded
per-metric history series.

Numeric values are modelled as rationals (exact real arithmetic in place of
Python floats); Python `int(x)` truncation toward zero is `pyInt`.
-/

attribute [local semireducible] Rat.mul Rat.inv Rat.add Rat.sub

/-- Python `int(x)` applied to a number: truncation toward zero. -/
def pyInt (q : ℚ) : ℤ := if 0 ≤ q then q.floor else -((-q).floor)

/-- The computable `Rat.floor` agrees with the ambient `Int.floor` on `ℚ`. -/
theorem ratFloor_eq_intFloor (q : ℚ) : q.floor = ⌊q⌋ := by
  rw [Rat.floor_def, Rat.floor_def']

theorem pyInt_of_nonneg (q : ℚ) (h : 0 ≤ q) : pyInt q = ⌊q⌋ := by
  unfold pyInt
  rw [if_pos h, ratFloor_eq_intFloor]

theorem pyInt_zero : pyInt 0 = 0 := by decide

/-- Python `min` over a list, as used on nonempty lists; returns 0 on `[]`
(every call site in the source guards the empty case separately). -/
def listMin : List ℚ → ℚ
  | [] => 0
  | x :: xs => xs.foldl min x

/-- Python `max` over a list, as used on nonempty lists; returns 0 on `[]`. -/
def listMax : List ℚ → ℚ
  | [] => 0
  | x :: xs => xs.foldl max x

/-- Python slice `l[-w:]` guarded by `if len(l) > w`, the windowing pattern
used throughout `chart.py` (`values[-width:] if len(values) > width else
values`).  For `w = 0` Python's `l[-0:]` is the whole list. -/
def pyLast (w : Nat) (l : List α) : List α :=
  if l.length > w then (if w = 0 then l else l.drop (l.length - w)) else l

/-- Python `x or 0` on an optional float: `None` and `0.0` are falsy. -/
def pyOrZero : Option ℚ → ℚ
  | none => 0
  | some x => if x = 0 then 0 else x

/-- Decimal digit characters, `natDigitChar d` is the digit for `d < 10`. -/
def natDigitChar (d : Nat) : Char :=
  ['0', '1', '2', '3', '4', '5', '6', '7', '8', '9'].getD d '0'

/-- Decimal digits, least significant first; `fuel` bounds the recursion
depth structurally (any `fuel ≥ n` yields all digits of `n`). -/
def natToRevDigitsAux : Nat → Nat → List Char
  | 0, _ => []
  | fuel + 1, n => if n = 0 then [] else natDigitChar (n % 10) :: natToRevDigitsAux fuel (n / 10)

/-- Decimal digits of `n`, least significant first. -/
def natToRevDigits (n : Nat) : List Char := natToRevDigitsAux n n

/-- Decimal rendering of a natural number. -/
def natRepr (n : Nat) : String :=
  if n = 0 then "0" else String.mk (natToRevDigits n).reverse

/-- Round half to even, the rounding CPython's fixed-point formatting uses. -/
def rhe (q : ℚ) : ℤ :=
  let fl : ℤ := q.floor
  if q - fl < 1/2 then fl else if 1/2 < q - fl then fl + 1
  else if fl % 2 = 0 then fl else fl + 1

/-- Model of the Python f-string `f"{x:.1f}"`: fixed-point with one decimal
digit, rounding half to even (exact on the decimal values exercised here). -/
def formatFixed1 (q : ℚ) : String :=
  let n := rhe (q * 10)
  let a := n.natAbs
  let sign := if n < 0 ∨ (n = 0 ∧ q < 0) then "-" else ""
  sign ++ natRepr (a / 10) ++ "." ++ natRepr (a % 10)

/-- A row of `w` spaces, the blank chart line `' ' * width`. -/
def blankRow (w : Nat) : String := String.mk (List.replicate w ' ')

/-- Python `s.rjust(w)`: left-pad with spaces to length `w`. -/
def pyRjust (s : String) (w : Nat) : String :=
  String.mk (List.replicate (w - s.length) ' ') ++ s

/-- Python `'\n'.join(lines)`. -/
def joinLines : List String → String
  | [] => ""
  | [s] => s
  | s :: rest => s ++ "\n" ++ joinLines rest

/-- Number of text lines of a rendered string (newline count plus one). -/
def lineCount (s : String) : Nat := s.data.count '\n' + 1

theorem strdata_append (a b : String) : (a ++ b).data = a.data ++ b.data := by
  cases a; cases b; rfl

theorem str_ext {a b : String} (h : a.data = b.data) : a = b := by
  cases a; cases b; exact congrArg String.mk h

theorem str_length_mk (cs : List Char) : (String.mk cs).length = cs.length := rfl

theorem joinLines_cons_cons (a b : String) (t : List String) :
    joinLines (a :: b :: t) = a ++ "\n" ++ joinLines (b :: t) := rfl

theorem lineCount_joinLines (L : List String) (hne : L ≠ [])
    (hnl : ∀ s ∈ L, ('\n') ∉ s.data) : lineCount (joinLines L) = L.length := by
  induction L with
  | nil => simp at hne
  | cons a rest ih =>
    cases rest with
    | nil =>
      have ha : ('\n') ∉ a.data := hnl a (by simp)
      simp [joinLines, lineCount, List.count_eq_zero.mpr ha]
    | cons b t =>
      have ha : ('\n') ∉ a.data := hnl a (by simp)
      have hr := ih (by simp) (fun s hs => hnl s (List.mem_cons_of_mem a hs))
      have hdata : (joinLines (a :: b :: t)).data
          = a.data ++ ['\n'] ++ (joinLines (b :: t)).data := by
        rw [joinLines_cons_cons, strdata_append, strdata_append]
      unfold lineCount at hr ⊢
      rw [hdata]
      simp only [List.count_append, List.count_eq_zero.mpr ha]
      have : (['\n'] : List Char).count '\n' = 1 := by decide
      rw [this]
      simp only [List.length_cons] at hr ⊢
      omega

theorem getD_map_lt {α β : Type} (f : α → β) (l : List α) (n : Nat) (d : α) (d' : β)
    (h : n < l.length) : (l.map f).getD n d' = f (l.getD n d) := by
  induction l generalizing n with
  | nil => simp at h
  | cons x xs ih =>
    cases n with
    | zero => rfl
    | succ m => exact ih m (by simpa using h)

theorem rangeMap_getD {β : Type} (f : Nat → β) (w n : Nat) (d : β) (h : n < w) :
    ((List.range w).map f).getD n d = f n := by
  induction w with
  | zero => omega
  | succ m ih =>
    rw [List.range_succ, List.map_append]
    by_cases hn : n < m
    · rw [List.getD_append _ _ _ _ (by simpa using hn)]
      exact ih hn
    · have hnm : n = m := by omega
      subst hnm
      rw [List.getD_append_right _ _ _ _ (by simp)]
      simp

theorem getD_mem_of_lt {α : Type} (l : List α) (n : Nat) (d : α) (h : n < l.length) :
    l.getD n d ∈ l := by
  induction l generalizing n with
  | nil => simp at h
  | cons x xs ih =>
    cases n with
    | zero => simp [List.getD]
    | succ m => exact List.mem_cons_of_mem x (ih m (by simpa using h))

theorem listGetD_ne_of_forall {α : Type} (l : List α) (n : Nat) (d : α) (c : α)
    (hd : d ≠ c) (hl : ∀ x ∈ l, x ≠ c) : l.getD n d ≠ c := by
  by_cases h : n < l.length
  · exact hl _ (getD_mem_of_lt l n d h)
  · rw [List.getD_eq_default _ _ (by omega)]
    exact hd

/-- Renderer configuration, `ChartRenderer.__init__` (chart.py line 26). -/
structure ChartRenderer where
  width : Nat := 50
  height : Nat := 10
  use_unicode : Bool := true

/-- Unicode block characters for smoother charts (chart.py lines 11-21). -/
def BLOCKS : List Char := [' ', '▁', '▂', '▃', '▄', '▅', '▆', '▇', '█']

/-- Simple ASCII fallback characters (chart.py line 24). -/
def ASCII_BLOCKS : List Char := [' ', '.', ':', '|', '#']

/-- Embedding of `ChartRenderer._get_block_char` (chart.py lines 104-127).  `bar_height`
is a Python int at every call site, so `bar_height % 1` is always 0. -/
def ChartRenderer.getBlockChar (c : ChartRenderer) (bar_height : ℤ) (current_row : Nat) : Char :=
  if c.use_unicode then
    let row_in_bar : ℤ := (current_row : ℤ) - ((c.height : ℤ) - bar_height)
    if row_in_bar < 0 then ' '
    else if bar_height ≥ (c.height : ℤ) then '█'
    else if row_in_bar = bar_height - 1 ∧ bar_height < (c.height : ℤ) then
      let fraction : ℚ := if bar_height < (c.height : ℤ) then ((bar_height % 1 : ℤ) : ℚ) else 1
      let block_idx : ℤ := min (pyInt (fraction * 8)) 8
      BLOCKS.getD block_idx.toNat ' '
    else '█'
  else '#'

/-- An entry of `latest_scaled` in `render`: either one of the `' '` strings
used as left padding, or a scaled integer bar height (chart.py lines 60-62,
71: `isinstance(latest_scaled[data_idx], int)`). -/
inductive HCell where
  | pad
  | val (h : ℤ)
deriving DecidableEq

/-- Python `bar_height = cell if isinstance(cell, int) else 0` (chart.py line 71). -/
def HCell.toBarHeight : HCell → ℤ
  | .pad => 0
  | .val h => h

/-- Python `min_value = min(values) if values else 0` when not supplied
(chart.py lines 41-42). -/
def renderMinVal (values : List ℚ) (min_value? : Option ℚ) : ℚ :=
  match min_value? with
  | some m => m
  | none => if values = [] then 0 else listMin values

/-- Python `max_value = max(values) if values else 100` when not supplied
(chart.py lines 43-44). -/
def renderMaxVal (values : List ℚ) (max_value? : Option ℚ) : ℚ :=
  match max_value? with
  | some m => m
  | none => if values = [] then 100 else listMax values

/-- Python `value_range = max - min; if value_range == 0: value_range = 1`
(chart.py lines 47-49 and 327-329). -/
def clampRange (r : ℚ) : ℚ := if r = 0 then 1 else r

/-- The list `scaled`: each value normalized and truncated to chart coordinates
(chart.py lines 52-55). -/
def ChartRenderer.renderScaled (c : ChartRenderer) (values : List ℚ)
    (min_value? max_value? : Option ℚ) : List ℤ :=
  let min_value := renderMinVal values min_value?
  let value_range := clampRange (renderMaxVal values max_value? - min_value)
  values.map (fun value => pyInt ((value - min_value) / value_range * c.height))

/-- The list `latest_scaled`: the last `width` scaled values, left-padded with `' '`
entries when fewer than `width` exist (chart.py lines 58-62). -/
def ChartRenderer.renderLatestCells (c : ChartRenderer) (values : List ℚ)
    (min_value? max_value? : Option ℚ) : List HCell :=
  let latest := pyLast c.width (c.renderScaled values min_value? max_value?)
  if latest.length < c.width then
    List.replicate (c.width - latest.length) HCell.pad ++ latest.map HCell.val
  else latest.map HCell.val

/-- The list `chart_lines` built row by row (chart.py lines 65-79). -/
def ChartRenderer.renderChartLines (c : ChartRenderer) (values : List ℚ)
    (min_value? max_value? : Option ℚ) : List String :=
  let cells := c.renderLatestCells values min_value? max_value?
  (List.range c.height).map (fun (row : Nat) =>
    String.mk ((List.range c.width).map (fun (col : Nat) =>
      if col < cells.length then
        let bar_height := (cells.getD col HCell.pad).toBarHeight
        if (row : ℤ) ≥ (c.height : ℤ) - bar_height then c.getBlockChar bar_height row
        else ' '
      else ' ')))

/-- Embedding of `ChartRenderer.render` (chart.py lines 31-102). -/
def ChartRenderer.render (c : ChartRenderer) (values : List ℚ)
    (min_value? max_value? : Option ℚ) (show_y_axis : Bool) : String :=
  if values = [] then
    (if show_y_axis then
      formatFixed1 (pyOrZero max_value?) ++ "\n"
        ++ joinLines (List.replicate c.height (blankRow c.width)) ++ "\n"
        ++ formatFixed1 (pyOrZero min_value?)
    else blankRow c.width)
  else
    let chart_lines := c.renderChartLines values min_value? max_value?
    if show_y_axis then
      let max_str := formatFixed1 (renderMaxVal values max_value?)
      let min_str := formatFixed1 (renderMinVal values min_value?)
      let mw := max max_str.length min_str.length
      joinLines ([pyRjust max_str mw ++ " │"]
        ++ chart_lines.map (fun line => String.mk (List.replicate mw ' ') ++ " │" ++ line)
        ++ [pyRjust min_str mw ++ " │"])
    else joinLines chart_lines

/-- The sparkline glyphs `▁▂▃▄▅▆▇█` (chart.py line 171). -/
def sparkChars : List Char := ['▁', '▂', '▃', '▄', '▅', '▆', '▇', '█']

/-- Python `min_val = min(latest) if latest else 0` (chart.py line 166). -/
def sparkMin (latest : List ℚ) : ℚ := if latest = [] then 0 else listMin latest

/-- Python `max_val = max(latest) if latest else 100` (chart.py line 167). -/
def sparkMax (latest : List ℚ) : ℚ := if latest = [] then (100 : ℚ) else listMax latest

/-- Python `range_val = max_val - min_val if max_val != min_val else 1`
(chart.py line 168). -/
def sparkRange (latest : List ℚ) : ℚ :=
  if sparkMax latest ≠ sparkMin latest then sparkMax latest - sparkMin latest else 1

/-- One sparkline character: `spark_chars[min(int(normalized * 8), 7)]`
(chart.py lines 174-177).  The computed index is provably in `[0, 7]`, so
the `.toNat`-based indexing never meets Python's negative-index
wraparound. -/
def sparkCell (latest : List ℚ) (value : ℚ) : Char :=
  sparkChars.getD (min (pyInt ((value - sparkMin latest) / sparkRange latest * 8)) 7).toNat ' '

/-- Embedding of `ChartRenderer.render_sparkline` (chart.py lines 154-179). -/
def ChartRenderer.render_sparkline (c : ChartRenderer) (values : List ℚ)
    (width? : Option Nat) : String :=
  let width := width?.getD c.width
  if values = [] then String.mk (List.replicate width '─')
  else
    let latest := pyLast width values
    String.mk (latest.map (sparkCell latest))

example : ChartRenderer.render ⟨1, 4, true⟩ [1] (some 0) (some 4) false = " \n \n \n " := by decide
example : ChartRenderer.render ⟨1, 4, true⟩ [2] (some 0) (some 4) false = " \n \n█\n " := by decide
example : ChartRenderer.render ⟨2, 3, true⟩ [5] none none true = "5.0 │\n    │  \n    │  \n    │  \n5.0 │" := by decide
example : ChartRenderer.render_sparkline ⟨4, 4, true⟩ [5, 5] none = "▁▁" := by decide
example : ChartRenderer.render_sparkline ⟨4, 4, true⟩ [3, 5] none = "▁█" := by decide

/-- One series of `render_network_split`: bytes converted to MB/s, windowed
to the last `width` values, left-padded with zeros (chart.py 194-205). -/
def splitPadded (width : Nat) (values : List ℚ) : List ℚ :=
  let mb := values.map (fun v => v / (1024 * 1024))
  let latest := pyLast width mb
  if latest.length < width then List.replicate (width - latest.length) (0 : ℚ) ++ latest
  else latest

/-- The two normalization maxima of `render_network_split`: each series' own
max, floored at 10% of `max(sent_max, recv_max, 1)` (chart.py 208-214). -/
def splitMaxes (width : Nat) (sent_values recv_values : List ℚ) : ℚ × ℚ :=
  let sent_latest := splitPadded width sent_values
  let recv_latest := splitPadded width recv_values
  let sent_max0 := if sent_latest = [] then 1 else listMax sent_latest
  let recv_max0 := if recv_latest = [] then 1 else listMax recv_latest
  let overall_max := max (max sent_max0 recv_max0) 1
  (max sent_max0 (overall_max * (1 / 10)), max recv_max0 (overall_max * (1 / 10)))

/-- Scaling of one split series to half-chart coordinates (chart.py 219-228). -/
def splitScaled (half_height : Nat) (latest : List ℚ) (m : ℚ) : List ℤ :=
  latest.map (fun val => pyInt ((if m > 0 then val / m else 0) * half_height))

/-- The list `chart_lines` of `render_network_split` (chart.py 230-256): the top half
grows down from the top edge from the sent series, then the `─` separator,
then the bottom half grows up from the bottom edge from the recv series.
Column indexing is via `getD`; each scaled list has length `width` whenever
`width > 0` (and the column loop is empty when `width = 0`). -/
def ChartRenderer.splitChartLines (c : ChartRenderer) (sent_values recv_values : List ℚ)
    (width : Nat) : List String :=
  let half_height := c.height / 2
  let sent_scaled := splitScaled half_height (splitPadded width sent_values)
      (splitMaxes width sent_values recv_values).1
  let recv_scaled := splitScaled half_height (splitPadded width recv_values)
      (splitMaxes width sent_values recv_values).2
  ((List.range half_height).map (fun (row : Nat) =>
      String.mk ((List.range width).map (fun (col : Nat) =>
        if (row : ℤ) < sent_scaled.getD col 0 then '█' else ' '))))
    ++ [String.mk (List.replicate width '─')]
    ++ ((List.range half_height).map (fun (row : Nat) =>
      String.mk ((List.range width).map (fun (col : Nat) =>
        if (row : ℤ) ≥ (half_height : ℤ) - recv_scaled.getD col 0 then '█' else ' '))))

/-- Embedding of `ChartRenderer.render_network_split` (chart.py lines 181-277). -/
def ChartRenderer.render_network_split (c : ChartRenderer) (sent_values recv_values : List ℚ)
    (width? : Option Nat) (show_y_axis : Bool) : String :=
  let width := width?.getD c.width
  if sent_values = [] ∧ recv_values = [] then
    (if show_y_axis then
      "0.0\n" ++ joinLines (List.replicate c.height (blankRow width)) ++ "\n0.0"
    else blankRow width)
  else
    let chart_lines := c.splitChartLines sent_values recv_values width
    let half_height := c.height / 2
    if show_y_axis then
      let sent_max_str := formatFixed1 (splitMaxes width sent_values recv_values).1
      let recv_max_str := formatFixed1 (splitMaxes width sent_values recv_values).2
      let mw := max sent_max_str.length recv_max_str.length
      joinLines ([pyRjust sent_max_str mw ++ " │"]
        ++ (chart_lines.take half_height).map
            (fun line => String.mk (List.replicate mw ' ') ++ " │" ++ line)
        ++ [String.mk (List.replicate mw ' ') ++ " │" ++ chart_lines.getD half_height ""]
        ++ (chart_lines.drop (half_height + 1)).map
            (fun line => String.mk (List.replicate mw ' ') ++ " │" ++ line)
        ++ [pyRjust recv_max_str mw ++ " │"])
    else joinLines chart_lines

/-- The list `all_values` of `render_stacked`: index-wise sum of the three layers up
to the longest layer, absent entries counting as 0 (chart.py 288-299). -/
def stackedAllValues (bottom_values middle_values top_values : List ℚ) : List ℚ :=
  let max_len := max (max bottom_values.length middle_values.length) top_values.length
  (List.range max_len).map (fun i =>
    bottom_values.getD i 0 + middle_values.getD i 0 + top_values.getD i 0)

/-- Window one stacked layer to the last `width` values and left-pad with
zeros (chart.py 307-319). -/
def stackedLatest (width : Nat) (values : List ℚ) : List ℚ :=
  let latest := if values = [] then [] else pyLast width values
  if latest.length < width then List.replicate (width - latest.length) (0 : ℚ) ++ latest
  else latest

/-- Resolved `min_value` of `render_stacked`: defaults to 0 (chart.py 322-323). -/
def stackedMinVal (min_value? : Option ℚ) : ℚ := min_value?.getD 0

/-- Resolved `max_value` of `render_stacked`: defaults to the max of the
windowed summed series, or 1 when empty (chart.py 324-325). -/
def stackedMaxVal (width : Nat) (bv mv tv : List ℚ) (max_value? : Option ℚ) : ℚ :=
  match max_value? with
  | some m => m
  | none =>
    let all_latest := pyLast width (stackedAllValues bv mv tv)
    if all_latest = [] then 1 else listMax all_latest

/-- The `value_range` of `render_stacked` with the zero clamp (chart.py 327-329). -/
def stackedRangeVal (width : Nat) (bv mv tv : List ℚ) (min_value? max_value? : Option ℚ) : ℚ :=
  clampRange (stackedMaxVal width bv mv tv max_value? - stackedMinVal min_value?)

/-- Per-layer scaling of `render_stacked` (chart.py 332-334): note the code
divides by `value_range` without subtracting `min_value`. -/
def stackedScaled (height : Nat) (value_range : ℚ) (latest : List ℚ) : List ℤ :=
  latest.map (fun v => pyInt (v / value_range * height))

/-- One cell of the stacked chart, the if/elif chain of chart.py 346-355, as
a function of the scaled layer heights and of `r = row_from_bottom`. -/
def stackedBand (b m t : ℤ) (r : ℤ) : Char :=
  if r < b then '█' else if r < b + m then '▓' else if r < b + m + t then '▒' else ' '

/-- Which band of the stacked column row `r` falls into, from the baseline:
0 = bottom layer, 1 = middle, 2 = top, 3 = blank. -/
def bandRank (b m t : ℤ) (r : ℤ) : Nat :=
  if r < b then 0 else if r < b + m then 1 else if r < b + m + t then 2 else 3

/-- The glyph of each stacked band (chart.py 349, 351, 353, 355). -/
def glyphOfRank : Nat → Char
  | 0 => '█'
  | 1 => '▓'
  | 2 => '▒'
  | _ => ' '

/-- The list `chart_lines` of `render_stacked` (chart.py 337-356). -/
def ChartRenderer.stackedChartLines (c : ChartRenderer) (bv mv tv : List ℚ) (width : Nat)
    (min_value? max_value? : Option ℚ) : List String :=
  let vr := stackedRangeVal width bv mv tv min_value? max_value?
  let bs := stackedScaled c.height vr (stackedLatest width bv)
  let ms := stackedScaled c.height vr (stackedLatest width mv)
  let ts := stackedScaled c.height vr (stackedLatest width tv)
  (List.range c.height).map (fun (row : Nat) =>
    String.mk ((List.range width).map (fun (col : Nat) =>
      stackedBand (bs.getD col 0) (ms.getD col 0) (ts.getD col 0) ((c.height : ℤ) - 1 - row))))

/-- Embedding of `ChartRenderer.render_stacked` (chart.py lines 279-374). -/
def ChartRenderer.render_stacked (c : ChartRenderer) (bottom_values middle_values top_values : List ℚ)
    (width? : Option Nat) (min_value? max_value? : Option ℚ) (show_y_axis : Bool) : String :=
  let width := width?.getD c.width
  if stackedAllValues bottom_values middle_values top_values = [] then
    (if show_y_axis then
      formatFixed1 (pyOrZero max_value?) ++ "\n"
        ++ joinLines (List.replicate c.height (blankRow width)) ++ "\n"
        ++ formatFixed1 (pyOrZero min_value?)
    else blankRow width)
  else
    let chart_lines := c.stackedChartLines bottom_values middle_values top_values width
        min_value? max_value?
    if show_y_axis then
      let max_str := formatFixed1 (stackedMaxVal width bottom_values middle_values top_values max_value?)
      let min_str := formatFixed1 (stackedMinVal min_value?)
      let mw := max max_str.length min_str.length
      joinLines ([pyRjust max_str mw ++ " │"]
        ++ chart_lines.map (fun line => String.mk (List.replicate mw ' ') ++ " │" ++ line)
        ++ [pyRjust min_str mw ++ " │"])
    else joinLines chart_lines

/-- The hardcoded core-count → (P-core count, E-core count) table, identical
in yamon/api/websocket.py lines 70-91 and backend/api/websocket.py lines
70-91: 8→4P4E, 10→8P2E, 12→8P4E, 16→12P4E, otherwise half/half. -/
def coreTopology (cpu_count : Nat) : Nat × Nat :=
  if cpu_count = 8 then (4, 4)
  else if cpu_count = 10 then (8, 2)
  else if cpu_count = 12 then (8, 4)
  else if cpu_count = 16 then (12, 4)
  else (cpu_count / 2, cpu_count - cpu_count / 2)

/-- Python `p_cores = cpu_per_core[:p_core_count] if len(cpu_per_core) >=
p_core_count else []` (both websocket versions, line 94). -/
def pCoresOf (cpu_count : Nat) (cpu_per_core : List ℚ) : List ℚ :=
  if cpu_per_core.length ≥ (coreTopology cpu_count).1 then
    cpu_per_core.take (coreTopology cpu_count).1
  else []

/-- Python `e_cores = cpu_per_core[p_core_count:] if len(cpu_per_core) >
p_core_count else []` (both websocket versions, line 95). -/
def eCoresOf (cpu_count : Nat) (cpu_per_core : List ℚ) : List ℚ :=
  if cpu_per_core.length > (coreTopology cpu_count).1 then
    cpu_per_core.drop (coreTopology cpu_count).1
  else []

/-- The `cpu_p_percent` of yamon/api/websocket.py lines 102-107: the P cores'
contribution to the all-core average, `sum(p_cores) / cpu_count`. -/
def yamon_cpu_p_percent (cpu_count : Nat) (cpu_per_core : List ℚ) : ℚ :=
  if cpu_count > 0 then
    (if pCoresOf cpu_count cpu_per_core ≠ [] then
      (pCoresOf cpu_count cpu_per_core).sum / cpu_count
    else 0)
  else 0

/-- The `cpu_e_percent` of yamon/api/websocket.py lines 102-107. -/
def yamon_cpu_e_percent (cpu_count : Nat) (cpu_per_core : List ℚ) : ℚ :=
  if cpu_count > 0 then
    (if eCoresOf cpu_count cpu_per_core ≠ [] then
      (eCoresOf cpu_count cpu_per_core).sum / cpu_count
    else 0)
  else 0

/-- The `cpu_p_percent` of backend/api/websocket.py lines 97-109: the P cores'
share of the currently active usage, `sum(p_cores) / total_usage * 100`. -/
def backend_cpu_p_percent (cpu_count : Nat) (cpu_per_core : List ℚ) : ℚ :=
  let p_total := if pCoresOf cpu_count cpu_per_core ≠ [] then
      (pCoresOf cpu_count cpu_per_core).sum else 0
  let e_total := if eCoresOf cpu_count cpu_per_core ≠ [] then
      (eCoresOf cpu_count cpu_per_core).sum else 0
  let total := p_total + e_total
  if total > 0 then p_total / total * 100 else 0

/-- The `cpu_e_percent` of backend/api/websocket.py lines 97-109. -/
def backend_cpu_e_percent (cpu_count : Nat) (cpu_per_core : List ℚ) : ℚ :=
  let p_total := if pCoresOf cpu_count cpu_per_core ≠ [] then
      (pCoresOf cpu_count cpu_per_core).sum else 0
  let e_total := if eCoresOf cpu_count cpu_per_core ≠ [] then
      (eCoresOf cpu_count cpu_per_core).sum else 0
  let total := p_total + e_total
  if total > 0 then e_total / total * 100 else 0

/-- Modelled from the spec: `yamon/history.py` (`MetricsHistory` and its
per-metric bounded series) is not among the available sources — only its
callers in `yamon/app.py` and the API modules are — so the series is
modelled from spec §4.1: a fixed capacity, append one value at the end,
then evict the oldest value(s) until the length is at most the capacity;
`get_values` returns the stored values oldest first. -/
structure Series where
  capacity : Nat
  values : List ℚ

/-- Modelled from the spec: a fresh empty series of the given capacity. -/
def Series.new (capacity : Nat) : Series := ⟨capacity, []⟩

/-- Modelled from the spec: append one value, evicting the oldest values if
the capacity is exceeded. -/
def Series.add_value (s : Series) (v : ℚ) : Series :=
  let vs := s.values ++ [v]
  ⟨s.capacity, vs.drop (vs.length - s.capacity)⟩

/-- Append a whole sequence of values, one at a time, oldest first. -/
def Series.add_values (s : Series) (vs : List ℚ) : Series := vs.foldl Series.add_value s

/-- Modelled from the spec: the stored values, oldest first. -/
def Series.get_values (s : Series) : List ℚ := s.values

/-- The last `n` elements of a list (all of it when `n ≥ length`). -/
def lastN (n : Nat) (l : List α) : List α := l.drop (l.length - n)

example : ChartRenderer.render_network_split ⟨1, 3, true⟩ [1] [1] none false = " \n─\n " := by decide
example : ChartRenderer.render_network_split ⟨2, 4, true⟩ [10, 0] [0, 10] none false
    = "  \n  \n──\n  \n  " := by decide
example : ChartRenderer.render_network_split ⟨2, 4, true⟩ [10485760, 0] [0, 10485760] none false
    = "█ \n█ \n──\n █\n █" := by decide
example : ChartRenderer.render_stacked ⟨1, 4, true⟩ [10] [0] [0] none (some 0) (some 1) false
    = "█\n█\n█\n█" := by decide
example : (Series.add_values (Series.new 3) [10, 20, 30, 40]).get_values = [20, 30, 40] := by decide
example : ChartRenderer.render_network_split ⟨2, 4, true⟩ [10485760, 0] [0, 10485760] none true
    = "10.0 │\n     │█ \n     │█ \n     │──\n     │ █\n     │ █\n10.0 │" := by decide

theorem lastN_append_absorb {α : Type} (C : Nat) (A xs : List α) :
    lastN C (lastN C A ++ xs) = lastN C (A ++ xs) := by
  unfold lastN
  by_cases hC : C ≤ A.length
  · have hk : A.length - C ≤ A.length := by omega
    have hdk : (A ++ xs).drop (A.length - C) = A.drop (A.length - C) ++ xs := by
      rw [List.drop_append_eq_append_drop, Nat.sub_eq_zero_of_le hk, List.drop_zero]
    have hdlen : (A.drop (A.length - C)).length = C := by
      rw [List.length_drop]; omega
    have hlen1 : (A.drop (A.length - C) ++ xs).length - C = xs.length := by
      rw [List.length_append, hdlen]; omega
    have hlen2 : (A ++ xs).length - C = (A.length - C) + xs.length := by
      rw [List.length_append]; omega
    rw [hlen1, hlen2, ← List.drop_drop, hdk]
  · have h0 : A.length - C = 0 := by omega
    rw [h0, List.drop_zero]

theorem add_values_spec (xs : List ℚ) (s : Series) (h : s.values.length ≤ s.capacity) :
    (s.add_values xs).values = lastN s.capacity (s.values ++ xs)
    ∧ (s.add_values xs).capacity = s.capacity := by
  induction xs generalizing s with
  | nil =>
    refine ⟨?_, rfl⟩
    show s.values = lastN s.capacity (s.values ++ [])
    rw [List.append_nil]
    unfold lastN
    rw [Nat.sub_eq_zero_of_le h, List.drop_zero]
  | cons x xs ih =>
    have hstep : (s.add_value x).values = lastN s.capacity (s.values ++ [x]) := rfl
    have hcap : (s.add_value x).capacity = s.capacity := rfl
    have hlen : (s.add_value x).values.length ≤ (s.add_value x).capacity := by
      rw [hstep, hcap]
      unfold lastN
      rw [List.length_drop, List.length_append]
      omega
    obtain ⟨h1, h2⟩ := ih (s.add_value x) hlen
    have hfold : s.add_values (x :: xs) = (s.add_value x).add_values xs := rfl
    refine ⟨?_, by rw [hfold, h2, hcap]⟩
    rw [hfold, h1, hcap, hstep, lastN_append_absorb]
    congr 1
    rw [List.append_assoc]
    rfl

/-- C1: for every capacity `C ≥ 1`, after appending `N` samples carrying the
metric, `get_values` returns the `C` most recently appended values in
arrival order when `N > C` (exactly `C` of them), and all `N` values
unchanged when `N ≤ C`; in particular capacity 3 with appended values
10, 20, 30, 40 yields `[20, 30, 40]`.  (`yamon/history.py` is modelled from
spec §4.1, since only its callers are among the sources.) -/
theorem spec_C1 (C : Nat) (hC : 1 ≤ C) (xs : List ℚ) :
    ((xs.length > C →
        (Series.add_values (Series.new C) xs).get_values = lastN C xs
        ∧ ((Series.add_values (Series.new C) xs).get_values).length = C)
      ∧ (xs.length ≤ C → (Series.add_values (Series.new C) xs).get_values = xs))
    ∧ (Series.add_values (Series.new 3) [10, 20, 30, 40]).get_values = [20, 30, 40] := by
  have base := (add_values_spec xs (Series.new C) (by simp [Series.new])).1
  have hval : (Series.add_values (Series.new C) xs).get_values = lastN C xs := by
    show (Series.add_values (Series.new C) xs).values = lastN C xs
    rw [base]
    rfl
  refine ⟨⟨fun hgt => ⟨hval, ?_⟩, fun hle => ?_⟩, by decide⟩
  · rw [hval]
    unfold lastN
    rw [List.length_drop]
    omega
  · rw [hval]
    unfold lastN
    rw [Nat.sub_eq_zero_of_le hle, List.drop_zero]

/-- Witness for C1: capacity 3, appended values 10, 20, 30, 40. -/
theorem spec_C1_witness :
    (Series.add_values (Series.new 3) [10, 20, 30, 40]).get_values = lastN 3 [10, 20, 30, 40]
    ∧ ((Series.add_values (Series.new 3) [10, 20, 30, 40]).get_values).length = 3 :=
  (spec_C1 3 (by norm_num) [10, 20, 30, 40]).1.1 (by norm_num)

/-- C3: the claim fails on the code (code bug).  With height 4, width 1 and
explicit range 0..4, the value 1 scales to bar height 1 yet the chart is
four blank rows — the bar is invisible — because `_get_block_char` computes
the "fractional" glyph index from `bar_height % 1`, which is always 0 for
the int `bar_height` (giving the blank `BLOCKS[0]`), and its row test
`row_in_bar == bar_height - 1` selects the bottom row of the bar, not the
top.  The value 2 accordingly renders as a solid block floating above a
blank cell instead of all-solid below a partial top glyph. -/
theorem spec_C3 :
    ChartRenderer.render ⟨1, 4, true⟩ [1] (some 0) (some 4) false = " \n \n \n "
    ∧ ChartRenderer.render ⟨1, 4, true⟩ [2] (some 0) (some 4) false = " \n \n█\n "
    ∧ ChartRenderer.getBlockChar ⟨1, 4, true⟩ 1 3 = ' '
    ∧ ChartRenderer.getBlockChar ⟨1, 4, true⟩ 2 3 = ' '
    ∧ ChartRenderer.getBlockChar ⟨1, 4, true⟩ 2 2 = '█' := by
  refine ⟨by decide, by decide, by decide, by decide, by decide⟩

theorem foldl_min_replicate (m : Nat) (v : ℚ) : (List.replicate m v).foldl min v = v := by
  induction m with
  | zero => rfl
  | succ k ih => rw [List.replicate_succ, List.foldl_cons, min_self]; exact ih

theorem foldl_max_replicate (m : Nat) (v : ℚ) : (List.replicate m v).foldl max v = v := by
  induction m with
  | zero => rfl
  | succ k ih => rw [List.replicate_succ, List.foldl_cons, max_self]; exact ih

theorem listMin_replicate (n : Nat) (v : ℚ) (h : 0 < n) :
    listMin (List.replicate n v) = v := by
  cases n with
  | zero => omega
  | succ m =>
    rw [List.replicate_succ]
    show (List.replicate m v).foldl min v = v
    exact foldl_min_replicate m v

theorem listMax_replicate (n : Nat) (v : ℚ) (h : 0 < n) :
    listMax (List.replicate n v) = v := by
  cases n with
  | zero => omega
  | succ m =>
    rw [List.replicate_succ]
    show (List.replicate m v).foldl max v = v
    exact foldl_max_replicate m v

theorem mem_pyLast {α : Type} (w : Nat) (l : List α) (x : α) (h : x ∈ pyLast w l) : x ∈ l := by
  unfold pyLast at h
  split at h
  · split at h
    · exact h
    · exact List.mem_of_mem_drop h
  · exact h

theorem renderScaled_replicate (c : ChartRenderer) (v : ℚ) (n : Nat) (h : 0 < n) :
    c.renderScaled (List.replicate n v) none none = List.replicate n 0 := by
  have hne : List.replicate n v ≠ [] := by simp; omega
  unfold ChartRenderer.renderScaled renderMinVal renderMaxVal
  simp only [if_neg hne]
  rw [listMin_replicate n v h, listMax_replicate n v h, List.map_replicate]
  have : pyInt ((v - v) / clampRange (v - v) * c.height) = 0 := by
    rw [sub_self, zero_div, zero_mul, pyInt_zero]
  rw [this]

theorem renderLatestCells_bar_zero (c : ChartRenderer) (v : ℚ) (n : Nat) (h : 0 < n) :
    ∀ cell ∈ c.renderLatestCells (List.replicate n v) none none,
      cell.toBarHeight = 0 := by
  intro cell hc
  unfold ChartRenderer.renderLatestCells at hc
  rw [renderScaled_replicate c v n h] at hc
  dsimp only at hc
  have hval : ∀ x ∈ (pyLast c.width (List.replicate n (0:ℤ))).map HCell.val,
      HCell.toBarHeight x = 0 := by
    intro x hx
    obtain ⟨y, hy, rfl⟩ := List.mem_map.mp hx
    have := List.eq_of_mem_replicate (mem_pyLast _ _ _ hy)
    rw [this]
    rfl
  split at hc
  · rcases List.mem_append.mp hc with hpad | hmap
    · rw [List.eq_of_mem_replicate hpad]
      rfl
    · exact hval cell hmap
  · exact hval cell hc

theorem renderChartLines_blank (c : ChartRenderer) (v : ℚ) (n : Nat) (h : 0 < n) :
    c.renderChartLines (List.replicate n v) none none
      = List.replicate c.height (blankRow c.width) := by
  unfold ChartRenderer.renderChartLines
  have hbar := renderLatestCells_bar_zero c v n h
  have hrow : ∀ row ∈ List.range c.height,
      String.mk ((List.range c.width).map (fun (col : Nat) =>
        if col < (c.renderLatestCells (List.replicate n v) none none).length then
          if (row : ℤ) ≥ (c.height : ℤ)
              - ((c.renderLatestCells (List.replicate n v) none none).getD col
                  HCell.pad).toBarHeight then
            c.getBlockChar
              ((c.renderLatestCells (List.replicate n v) none none).getD col
                HCell.pad).toBarHeight row
          else ' '
        else ' ')) = blankRow c.width := by
    intro row hrowmem
    have hrowlt : row < c.height := List.mem_range.mp hrowmem
    unfold blankRow
    congr 1
    have hcol : ∀ col ∈ List.range c.width,
        (if col < (c.renderLatestCells (List.replicate n v) none none).length then
          if (row : ℤ) ≥ (c.height : ℤ)
              - ((c.renderLatestCells (List.replicate n v) none none).getD col
                  HCell.pad).toBarHeight then
            c.getBlockChar
              ((c.renderLatestCells (List.replicate n v) none none).getD col
                HCell.pad).toBarHeight row
          else ' '
        else ' ') = ' ' := by
      intro col _
      by_cases hcl : col < (c.renderLatestCells (List.replicate n v) none none).length
      · rw [if_pos hcl]
        have hz := hbar _ (getD_mem_of_lt _ col HCell.pad hcl)
        rw [hz, if_neg (by omega)]
      · rw [if_neg hcl]
    rw [List.map_congr_left hcol]
    simp
  rw [List.map_congr_left hrow]
  simp

/-- C4: when `max_value - min_value` is zero the range is clamped to 1
before normalization (so the divisor is never 0), and for any non-empty
all-equal input with derived min/max the chart renders (a flat
minimal/zero-height bar in every column, i.e. `height` blank rows) instead
of raising a division error. -/
theorem spec_C4 (c : ChartRenderer) (v : ℚ) (n : Nat) (hn : 0 < n) :
    (∀ lo hi : ℚ, clampRange (hi - lo) ≠ 0)
    ∧ c.render (List.replicate n v) none none false
        = joinLines (List.replicate c.height (blankRow c.width)) := by
  constructor
  · intro lo hi
    unfold clampRange
    split
    · norm_num
    · assumption
  · have hne : List.replicate n v ≠ [] := by simp; omega
    unfold ChartRenderer.render
    rw [if_neg hne]
    simp only [Bool.false_eq_true, if_false]
    rw [renderChartLines_blank c v n hn]

/-- Witness for C4: width 3, height 2, five equal values 7. -/
theorem spec_C4_witness :
    ChartRenderer.render ⟨3, 2, true⟩ (List.replicate 5 7) none none false
      = joinLines (List.replicate 2 (blankRow 3)) :=
  (spec_C4 ⟨3, 2, true⟩ 7 5 (by norm_num)).2

theorem coreTopology_fst_le (n : Nat) : (coreTopology n).1 ≤ n := by
  unfold coreTopology
  split_ifs <;> omega

theorem pe_cores_sum (n : Nat) (cores : List ℚ) (hlen : cores.length = n) :
    (pCoresOf n cores).sum + (eCoresOf n cores).sum = cores.sum := by
  have hp : (coreTopology n).1 ≤ n := coreTopology_fst_le n
  unfold pCoresOf eCoresOf
  rw [if_pos (by omega)]
  by_cases hgt : cores.length > (coreTopology n).1
  · rw [if_pos hgt, ← List.sum_append, List.take_append_drop]
  · rw [if_neg hgt]
    have htake : cores.take (coreTopology n).1 = cores :=
      List.take_of_length_le (by omega)
    rw [htake, List.sum_nil, add_zero]

/-- C9: the two websocket handlers derive the P/E split from the same
hardcoded core-count table (8→4P4E, 10→8P2E, 12→8P4E, 16→12P4E, else
half/half) but normalize differently: the yamon version's
`cpu_p_percent + cpu_e_percent` equals the all-core average
(`sum(cpu_per_core)/cpu_count`, the contribution-to-total convention),
while the backend version's equals 100 whenever any core is active (the
share-of-active convention); at per-core usage `[100,0,...,0]` on 8 cores
they send 12.5 and 100 respectively, so the two versions are not
equivalent. -/
theorem spec_C9 :
    (coreTopology 8 = (4, 4) ∧ coreTopology 10 = (8, 2) ∧ coreTopology 12 = (8, 4)
      ∧ coreTopology 16 = (12, 4))
    ∧ (∀ n : Nat, n ≠ 8 → n ≠ 10 → n ≠ 12 → n ≠ 16 → coreTopology n = (n / 2, n - n / 2))
    ∧ (∀ (n : Nat) (cores : List ℚ), 0 < n → cores.length = n →
        yamon_cpu_p_percent n cores + yamon_cpu_e_percent n cores = cores.sum / n)
    ∧ (∀ (n : Nat) (cores : List ℚ),
        0 < (pCoresOf n cores).sum + (eCoresOf n cores).sum →
        backend_cpu_p_percent n cores + backend_cpu_e_percent n cores = 100)
    ∧ yamon_cpu_p_percent 8 [100, 0, 0, 0, 0, 0, 0, 0] = 25 / 2
    ∧ backend_cpu_p_percent 8 [100, 0, 0, 0, 0, 0, 0, 0] = 100
    ∧ (25 / 2 : ℚ) ≠ 100 := by
  refine ⟨⟨by decide, by decide, by decide, by decide⟩, ?_, ?_, ?_, by decide, by decide, by decide⟩
  · intro n h8 h10 h12 h16
    unfold coreTopology
    rw [if_neg h8, if_neg h10, if_neg h12, if_neg h16]
  · intro n cores hn hlen
    unfold yamon_cpu_p_percent yamon_cpu_e_percent
    rw [if_pos hn, if_pos hn]
    have hps : (if pCoresOf n cores ≠ [] then (pCoresOf n cores).sum / (n : ℚ) else 0)
        = (pCoresOf n cores).sum / n := by
      split
      · rfl
      · rename_i hpe
        push_neg at hpe
        rw [hpe, List.sum_nil, zero_div]
    have hes : (if eCoresOf n cores ≠ [] then (eCoresOf n cores).sum / (n : ℚ) else 0)
        = (eCoresOf n cores).sum / n := by
      split
      · rfl
      · rename_i hee
        push_neg at hee
        rw [hee, List.sum_nil, zero_div]
    rw [hps, hes, div_add_div_same, pe_cores_sum n cores hlen]
  · intro n cores hpos
    unfold backend_cpu_p_percent backend_cpu_e_percent
    have hpt : (if pCoresOf n cores ≠ [] then (pCoresOf n cores).sum else 0)
        = (pCoresOf n cores).sum := by
      split
      · rfl
      · rename_i hpe
        push_neg at hpe
        rw [hpe, List.sum_nil]
    have het : (if eCoresOf n cores ≠ [] then (eCoresOf n cores).sum else 0)
        = (eCoresOf n cores).sum := by
      split
      · rfl
      · rename_i hee
        push_neg at hee
        rw [hee, List.sum_nil]
    dsimp only
    rw [hpt, het, if_pos hpos, if_pos hpos]
    have hne : (pCoresOf n cores).sum + (eCoresOf n cores).sum ≠ 0 := ne_of_gt hpos
    field_simp
    ring

/-- Witness for C9: the conjuncts with hypotheses, instantiated on 8 cores
at 50% each and on the default-topology core count 6. -/
theorem spec_C9_witness :
    (yamon_cpu_p_percent 8 [50, 50, 50, 50, 50, 50, 50, 50]
        + yamon_cpu_e_percent 8 [50, 50, 50, 50, 50, 50, 50, 50]
      = ([50, 50, 50, 50, 50, 50, 50, 50] : List ℚ).sum / 8)
    ∧ (backend_cpu_p_percent 8 [50, 50, 50, 50, 50, 50, 50, 50]
        + backend_cpu_e_percent 8 [50, 50, 50, 50, 50, 50, 50, 50] = 100)
    ∧ coreTopology 6 = (3, 3) :=
  ⟨spec_C9.2.2.1 8 [50, 50, 50, 50, 50, 50, 50, 50] (by norm_num) (by decide),
   spec_C9.2.2.2.1 8 [50, 50, 50, 50, 50, 50, 50, 50] (by decide),
   spec_C9.2.1 6 (by decide) (by decide) (by decide) (by decide)⟩

/-- Counterexample to C6: at A-series `[10, 0]`, B-series `[0, 10]`, width
2, height 4, the rendered split chart contains no bar cell at all — in
particular the top half does not show a bar for column 0. -/
theorem spec_C6_cex :
    ChartRenderer.render_network_split ⟨2, 4, true⟩ [10, 0] [0, 10] none false
      = "  \n  \n──\n  \n  "
    ∧ ('█') ∉ ("  \n  \n──\n  \n  ").data := ⟨by decide, by decide⟩

/-- C6 (amended): with A `[10, 0]` and B `[0, 10]` in bytes/s the split
render yields an all-blank chart, because the values are first converted to
MB/s and each series' normalization max is floored at 10% of
`max(combined max, 1 MB/s)`, so 10 bytes/s scales to bar height 0; scaling
the same pattern to 10 MB/s (`[10485760, 0]` and `[0, 10485760]`) produces
the originally claimed picture: a top-half bar in column 0 only and a
bottom-half bar in column 1 only. -/
theorem spec_C6 :
    ChartRenderer.render_network_split ⟨2, 4, true⟩ [10, 0] [0, 10] none false
      = "  \n  \n──\n  \n  "
    ∧ ChartRenderer.render_network_split ⟨2, 4, true⟩ [10485760, 0] [0, 10485760] none false
      = "█ \n█ \n──\n █\n █"
    ∧ (splitMaxes 2 [10, 0] [0, 10]).1 = 1 / 10
    ∧ (splitMaxes 2 [10, 0] [0, 10]).2 = 1 / 10
    ∧ (splitMaxes 2 [10485760, 0] [0, 10485760]).1 = 10 :=
  ⟨by decide, by decide, by decide, by decide, by decide⟩

theorem foldl_min_le_init (acc : ℚ) (l : List ℚ) : l.foldl min acc ≤ acc := by
  induction l generalizing acc with
  | nil => exact le_refl acc
  | cons x xs ih =>
    rw [List.foldl_cons]
    exact le_trans (ih (min acc x)) (min_le_left _ _)

theorem foldl_min_le_mem (acc : ℚ) (l : List ℚ) (x : ℚ) (hx : x ∈ l) :
    l.foldl min acc ≤ x := by
  induction l generalizing acc with
  | nil => simp at hx
  | cons y ys ih =>
    rw [List.foldl_cons]
    rcases List.mem_cons.mp hx with rfl | hmem
    · exact le_trans (foldl_min_le_init _ _) (min_le_right _ _)
    · exact ih _ hmem

theorem listMin_le (l : List ℚ) (x : ℚ) (hx : x ∈ l) : listMin l ≤ x := by
  cases l with
  | nil => simp at hx
  | cons a as =>
    show as.foldl min a ≤ x
    rcases List.mem_cons.mp hx with rfl | hmem
    · exact foldl_min_le_init _ _
    · exact foldl_min_le_mem _ _ _ hmem

theorem init_le_foldl_max (acc : ℚ) (l : List ℚ) : acc ≤ l.foldl max acc := by
  induction l generalizing acc with
  | nil => exact le_refl acc
  | cons x xs ih =>
    rw [List.foldl_cons]
    exact le_trans (le_max_left _ _) (ih (max acc x))

theorem mem_le_foldl_max (acc : ℚ) (l : List ℚ) (x : ℚ) (hx : x ∈ l) :
    x ≤ l.foldl max acc := by
  induction l generalizing acc with
  | nil => simp at hx
  | cons y ys ih =>
    rw [List.foldl_cons]
    rcases List.mem_cons.mp hx with rfl | hmem
    · exact le_trans (le_max_right _ _) (init_le_foldl_max _ _)
    · exact ih _ hmem

theorem le_listMax (l : List ℚ) (x : ℚ) (hx : x ∈ l) : x ≤ listMax l := by
  cases l with
  | nil => simp at hx
  | cons a as =>
    show x ≤ as.foldl max a
    rcases List.mem_cons.mp hx with rfl | hmem
    · exact init_le_foldl_max _ _
    · exact mem_le_foldl_max _ _ _ hmem

theorem pyLast_length {α : Type} (w : Nat) (l : List α) (hw : 1 ≤ w) :
    (pyLast w l).length = min l.length w := by
  unfold pyLast
  split_ifs with h1 h2
  · omega
  · rw [List.length_drop]
    omega
  · omega

theorem sparkline_nonempty (c : ChartRenderer) (values : List ℚ) (width? : Option Nat)
    (hne : values ≠ []) :
    c.render_sparkline values width?
      = String.mk ((pyLast (width?.getD c.width) values).map
          (sparkCell (pyLast (width?.getD c.width) values))) := by
  unfold ChartRenderer.render_sparkline
  rw [if_neg hne]

theorem sparkCell_mem (latest : List ℚ) (value : ℚ) : sparkCell latest value ∈ sparkChars := by
  unfold sparkCell
  apply getD_mem_of_lt
  have h1 : (min (pyInt ((value - sparkMin latest) / sparkRange latest * 8)) 7).toNat ≤ 7 := by
    have h := Int.toNat_le_toNat (min_le_right (pyInt ((value - sparkMin latest) / sparkRange latest * 8)) 7)
    exact le_trans h (by decide)
  have h2 : sparkChars.length = 8 := by decide
  omega

theorem sparkCell_of_min (latest : List ℚ) (hne : latest ≠ []) :
    sparkCell latest (listMin latest) = '▁' := by
  unfold sparkCell
  rw [show sparkMin latest = listMin latest from if_neg hne]
  rw [sub_self, zero_div, zero_mul, pyInt_zero]
  decide

theorem sparkCell_of_max (latest : List ℚ) (hne : latest ≠ [])
    (hlt : listMin latest < listMax latest) :
    sparkCell latest (listMax latest) = '█' := by
  unfold sparkCell
  have hmin : sparkMin latest = listMin latest := if_neg hne
  have hmax : sparkMax latest = listMax latest := if_neg hne
  have hned : sparkMax latest ≠ sparkMin latest := by
    rw [hmin, hmax]
    exact ne_of_gt hlt
  rw [show sparkRange latest = sparkMax latest - sparkMin latest from if_pos hned,
    hmin, hmax]
  rw [div_self (sub_ne_zero.mpr (ne_of_gt hlt)), one_mul]
  decide

/-- C10 (amended): for every non-empty input and every width `≥ 1` (Python's
`values[-0:]` quirk makes width 0 degenerate), the sparkline has exactly
`min(n, width)` characters — truncated to the most recent `width` values,
never left-padded — each one of the 8 spark glyphs (never a blank); the
empty input yields `width` copies of `─`; normalization is per-window:
every position holding the window minimum maps to `▁`, and when the window
has two distinct values every position holding the window maximum maps to
`█` (in an all-equal window every value maps to `▁`, not `█`). -/
theorem spec_C10 (c : ChartRenderer) (values : List ℚ) (width? : Option Nat)
    (hne : values ≠ []) (hw : 1 ≤ width?.getD c.width) :
    (c.render_sparkline values width?).length = min values.length (width?.getD c.width)
    ∧ (∀ ch ∈ (c.render_sparkline values width?).data, ch ∈ sparkChars)
    ∧ (∀ i, i < (pyLast (width?.getD c.width) values).length →
        (pyLast (width?.getD c.width) values).getD i 0
            = listMin (pyLast (width?.getD c.width) values) →
        (c.render_sparkline values width?).data.getD i ' ' = '▁')
    ∧ (listMin (pyLast (width?.getD c.width) values)
          < listMax (pyLast (width?.getD c.width) values) →
        ∀ i, i < (pyLast (width?.getD c.width) values).length →
        (pyLast (width?.getD c.width) values).getD i 0
            = listMax (pyLast (width?.getD c.width) values) →
        (c.render_sparkline values width?).data.getD i ' ' = '█')
    ∧ (∀ width2? : Option Nat, c.render_sparkline [] width2?
        = String.mk (List.replicate (width2?.getD c.width) '─')) := by
  have hdata : (c.render_sparkline values width?).data
      = (pyLast (width?.getD c.width) values).map
          (sparkCell (pyLast (width?.getD c.width) values)) := by
    rw [sparkline_nonempty c values width? hne]
  refine ⟨?_, ?_, ?_, ?_, fun width2? => rfl⟩
  · show (c.render_sparkline values width?).data.length = _
    rw [hdata, List.length_map, pyLast_length _ _ hw]
  · intro ch hch
    rw [hdata] at hch
    obtain ⟨val, _, rfl⟩ := List.mem_map.mp hch
    exact sparkCell_mem _ _
  · intro i hi hmin
    have hlne : pyLast (width?.getD c.width) values ≠ [] := by
      intro hemp
      rw [hemp] at hi
      simp at hi
    rw [hdata, getD_map_lt _ _ i 0 ' ' hi, hmin]
    exact sparkCell_of_min _ hlne
  · intro hlt i hi hmax
    have hlne : pyLast (width?.getD c.width) values ≠ [] := by
      intro hemp
      rw [hemp] at hi
      simp at hi
    rw [hdata, getD_map_lt _ _ i 0 ' ' hi, hmax]
    exact sparkCell_of_max _ hlne hlt

/-- Counterexample to C10 as stated: in the all-equal window `[5, 5]` the
window maximum 5 maps to `▁`, not to `█` — the rendered sparkline contains
no `█` at all. -/
theorem spec_C10_cex :
    ChartRenderer.render_sparkline ⟨4, 4, true⟩ [5, 5] none = "▁▁"
    ∧ listMax (pyLast 4 [5, 5]) = 5
    ∧ ('█') ∉ ("▁▁").data := ⟨by decide, by decide, by decide⟩

/-- Witness for C10: values `[3, 5]` at width 4. -/
theorem spec_C10_witness :
    (ChartRenderer.render_sparkline ⟨4, 4, true⟩ [3, 5] none).data.getD 1 ' ' = '█' :=
  (spec_C10 ⟨4, 4, true⟩ [3, 5] none (by decide) (by decide)).2.2.2.1
    (by decide) 1 (by decide) (by decide)

theorem mk_nf (cs : List Char) (h : ∀ ch ∈ cs, ch ≠ '\n') :
    ('\n') ∉ (String.mk cs).data := fun hmem => h _ hmem rfl

theorem append_nf (a b : String) (ha : ('\n') ∉ a.data) (hb : ('\n') ∉ b.data) :
    ('\n') ∉ (a ++ b).data := by
  rw [strdata_append]
  intro hmem
  rcases List.mem_append.mp hmem with hx | hx
  · exact ha hx
  · exact hb hx

theorem natDigitChar_ne (d : Nat) : natDigitChar d ≠ '\n' := by
  unfold natDigitChar
  exact listGetD_ne_of_forall _ _ _ _ (by decide) (by decide)

theorem natToRevDigitsAux_ne (fuel : Nat) : ∀ (n : Nat), ∀ ch ∈ natToRevDigitsAux fuel n,
    ch ≠ '\n' := by
  induction fuel with
  | zero =>
    intro n ch hch
    simp [natToRevDigitsAux] at hch
  | succ f ih =>
    intro n ch hch
    unfold natToRevDigitsAux at hch
    split at hch
    · simp at hch
    · rcases List.mem_cons.mp hch with rfl | hmem
      · exact natDigitChar_ne _
      · exact ih _ ch hmem

theorem natRepr_nf (n : Nat) : ('\n') ∉ (natRepr n).data := by
  unfold natRepr
  split
  · decide
  · apply mk_nf
    intro ch hch
    exact natToRevDigitsAux_ne n n ch (List.mem_reverse.mp hch)

theorem formatFixed1_nf (q : ℚ) : ('\n') ∉ (formatFixed1 q).data := by
  unfold formatFixed1
  apply append_nf
  apply append_nf
  apply append_nf
  · split
    · decide
    · decide
  · exact natRepr_nf _
  · decide
  · exact natRepr_nf _

theorem blankRow_nf (w : Nat) : ('\n') ∉ (blankRow w).data := by
  apply mk_nf
  intro ch hch
  rw [List.eq_of_mem_replicate hch]
  decide

theorem pyRjust_nf (s : String) (w : Nat) (hs : ('\n') ∉ s.data) :
    ('\n') ∉ (pyRjust s w).data := by
  apply append_nf
  · apply mk_nf
    intro ch hch
    rw [List.eq_of_mem_replicate hch]
    decide
  · exact hs

theorem getBlockChar_ne_nl (c : ChartRenderer) (b : ℤ) (r : Nat) :
    c.getBlockChar b r ≠ '\n' := by
  unfold ChartRenderer.getBlockChar
  dsimp only
  split_ifs <;>
    first
      | decide
      | exact listGetD_ne_of_forall _ _ _ _ (by decide) (by decide)

theorem count_nl_append (a b : String) :
    (a ++ b).data.count '\n' = a.data.count '\n' + b.data.count '\n' := by
  rw [strdata_append, List.count_append]

theorem count_nl_zero (s : String) (h : ('\n') ∉ s.data) : s.data.count '\n' = 0 :=
  List.count_eq_zero.mpr h

theorem renderChartLines_length (c : ChartRenderer) (values : List ℚ)
    (omin omax : Option ℚ) : (c.renderChartLines values omin omax).length = c.height := by
  unfold ChartRenderer.renderChartLines
  rw [List.length_map, List.length_range]

theorem renderChartLines_line_length (c : ChartRenderer) (values : List ℚ)
    (omin omax : Option ℚ) :
    ∀ s ∈ c.renderChartLines values omin omax, s.length = c.width := by
  intro s hs
  unfold ChartRenderer.renderChartLines at hs
  obtain ⟨row, _, rfl⟩ := List.mem_map.mp hs
  rw [str_length_mk, List.length_map, List.length_range]

theorem renderChartLines_nf (c : ChartRenderer) (values : List ℚ)
    (omin omax : Option ℚ) :
    ∀ s ∈ c.renderChartLines values omin omax, ('\n') ∉ s.data := by
  intro s hs
  unfold ChartRenderer.renderChartLines at hs
  obtain ⟨row, _, rfl⟩ := List.mem_map.mp hs
  apply mk_nf
  intro ch hch
  obtain ⟨col, _, rfl⟩ := List.mem_map.mp hch
  dsimp only
  split_ifs
  · exact getBlockChar_ne_nl _ _ _
  · decide
  · decide

/-- Counterexample to C2: with width 2, height 3, the empty input rendered
without the axis is a single blank row of 2 characters, not `height` = 3
lines (and with the axis the output has `height + 2` lines, not `height`). -/
theorem spec_C2_cex :
    ChartRenderer.render ⟨2, 3, true⟩ [] none none false = "  "
    ∧ lineCount (ChartRenderer.render ⟨2, 3, true⟩ [] none none false) = 1
    ∧ lineCount (ChartRenderer.render ⟨2, 3, true⟩ [5] none none true) = 5
    ∧ (1 : Nat) ≠ 3 ∧ (5 : Nat) ≠ 3 :=
  ⟨by decide, by decide, by decide, by decide, by decide⟩

/-- C2 (amended): for non-empty input, `render` without the axis returns
exactly `height` lines, each exactly `width` characters; with the axis it
returns `height + 2` lines (a max-label header row and a min-label footer
row around the `height` chart rows, whose body portions are the same
`width`-character lines).  The empty input yields a single blank row of
`width` characters without the axis, and, with the axis, `height` blank
rows framed by the two label lines showing the 0.0 defaults when
min/max are not supplied. -/
theorem spec_C2 (c : ChartRenderer) (values : List ℚ) (omin omax : Option ℚ) :
    (values ≠ [] →
        c.render values omin omax false = joinLines (c.renderChartLines values omin omax)
        ∧ (c.renderChartLines values omin omax).length = c.height
        ∧ (∀ s ∈ c.renderChartLines values omin omax, s.length = c.width)
        ∧ (1 ≤ c.height → lineCount (c.render values omin omax false) = c.height)
        ∧ lineCount (c.render values omin omax true) = c.height + 2)
    ∧ (values = [] → c.render values omin omax false = blankRow c.width)
    ∧ c.render [] none none true
        = "0.0\n" ++ joinLines (List.replicate c.height (blankRow c.width)) ++ "\n0.0" := by
  refine ⟨fun hne => ?_, fun hemp => ?_, ?_⟩
  · have hjoin : c.render values omin omax false
        = joinLines (c.renderChartLines values omin omax) := by
      unfold ChartRenderer.render
      rw [if_neg hne]
      rfl
    refine ⟨hjoin, renderChartLines_length c values omin omax,
      renderChartLines_line_length c values omin omax, fun hh => ?_, ?_⟩
    · rw [hjoin, lineCount_joinLines _ ?_ (renderChartLines_nf c values omin omax),
        renderChartLines_length]
      intro hnil
      have := renderChartLines_length c values omin omax
      rw [hnil] at this
      simp at this
      omega
    · have haxis : c.render values omin omax true
          = joinLines ([pyRjust (formatFixed1 (renderMaxVal values omax))
                (max (formatFixed1 (renderMaxVal values omax)).length
                  (formatFixed1 (renderMinVal values omin)).length) ++ " │"]
              ++ (c.renderChartLines values omin omax).map
                  (fun line => String.mk (List.replicate
                      (max (formatFixed1 (renderMaxVal values omax)).length
                        (formatFixed1 (renderMinVal values omin)).length) ' ') ++ " │" ++ line)
              ++ [pyRjust (formatFixed1 (renderMinVal values omin))
                (max (formatFixed1 (renderMaxVal values omax)).length
                  (formatFixed1 (renderMinVal values omin)).length) ++ " │"]) := by
        unfold ChartRenderer.render
        rw [if_neg hne]
        rfl
      rw [haxis, lineCount_joinLines]
      · rw [List.length_append, List.length_append, List.length_map,
          renderChartLines_length]
        simp
        omega
      · simp
      · intro s hs
        rcases List.mem_append.mp hs with hs1 | hs2
        · rcases List.mem_append.mp hs1 with hs3 | hs4
          · rw [List.mem_singleton.mp hs3]
            exact append_nf _ _ (pyRjust_nf _ _ (formatFixed1_nf _)) (by decide)
          · obtain ⟨line, hline, rfl⟩ := List.mem_map.mp hs4
            exact append_nf _ _ (append_nf _ _ (mk_nf _ (fun ch hch => by
              rw [List.eq_of_mem_replicate hch]; decide)) (by decide))
              (renderChartLines_nf c values omin omax line hline)
        · rw [List.mem_singleton.mp hs2]
          exact append_nf _ _ (pyRjust_nf _ _ (formatFixed1_nf _)) (by decide)
  · unfold ChartRenderer.render
    rw [if_pos hemp]
    rfl
  · unfold ChartRenderer.render
    rw [if_pos rfl]
    show formatFixed1 (pyOrZero none) ++ "\n"
        ++ joinLines (List.replicate c.height (blankRow c.width)) ++ "\n"
        ++ formatFixed1 (pyOrZero none) = _
    have h00 : formatFixed1 (pyOrZero none) = "0.0" := by decide
    rw [h00]
    apply str_ext
    repeat rw [strdata_append]
    simp [List.append_assoc]

/-- Witness for C2: width 2, height 3, one value. -/
theorem spec_C2_witness :
    lineCount (ChartRenderer.render ⟨2, 3, true⟩ [5] none none true) = 3 + 2
    ∧ lineCount (ChartRenderer.render ⟨2, 3, true⟩ [5] none none false) = 3 :=
  ⟨((spec_C2 ⟨2, 3, true⟩ [5] none none).1 (by decide)).2.2.2.2,
   ((spec_C2 ⟨2, 3, true⟩ [5] none none).1 (by decide)).2.2.2.1 (by decide)⟩

theorem lineCount_joinLines_blank (h w : Nat) (hh : 1 ≤ h) :
    lineCount (joinLines (List.replicate h (blankRow w))) = h := by
  rw [lineCount_joinLines]
  · rw [List.length_replicate]
  · intro hnil
    have := congrArg List.length hnil
    rw [List.length_replicate] at this
    simp at this
    omega
  · intro s hs
    rw [List.eq_of_mem_replicate hs]
    exact blankRow_nf w

/-- C8: none of the renderer entry points (`render`, `render_sparkline`,
`render_network_split`, `render_stacked`) raises on empty input sequences;
each returns a text result for empty inputs under either axis setting — a
single blank row of `width` spaces without the axis, the `height` blank
rows framed by the two `0.0` label lines with the axis (`height + 2` lines
in total), and `width` dashes for the sparkline. -/
theorem spec_C8 (c : ChartRenderer) (hh : 1 ≤ c.height) :
    lineCount (c.render [] none none true) = c.height + 2
    ∧ c.render [] none none false = blankRow c.width
    ∧ c.render_sparkline [] none = String.mk (List.replicate c.width '─')
    ∧ lineCount (c.render_network_split [] [] none true) = c.height + 2
    ∧ c.render_network_split [] [] none false = blankRow c.width
    ∧ lineCount (c.render_stacked [] [] [] none none none true) = c.height + 2
    ∧ c.render_stacked [] [] [] none none none false = blankRow c.width := by
  have hJ : (joinLines (List.replicate c.height (blankRow c.width))).data.count '\n'
      = c.height - 1 := by
    have := lineCount_joinLines_blank c.height c.width hh
    unfold lineCount at this
    omega
  refine ⟨?_, rfl, rfl, ?_, rfl, ?_, rfl⟩
  · show lineCount (formatFixed1 (pyOrZero none) ++ "\n"
        ++ joinLines (List.replicate c.height (blankRow c.width)) ++ "\n"
        ++ formatFixed1 (pyOrZero none)) = c.height + 2
    unfold lineCount
    repeat rw [count_nl_append]
    rw [hJ]
    have h0 : (formatFixed1 (pyOrZero none)).data.count '\n' = 0 := by decide
    have h1 : ("\n").data.count '\n' = 1 := by decide
    rw [h0, h1]
    omega
  · show lineCount ("0.0\n"
        ++ joinLines (List.replicate c.height (blankRow c.width)) ++ "\n0.0") = c.height + 2
    unfold lineCount
    repeat rw [count_nl_append]
    rw [hJ]
    have h2 : ("0.0\n").data.count '\n' = 1 := by decide
    have h3 : ("\n0.0").data.count '\n' = 1 := by decide
    rw [h2, h3]
    omega
  · show lineCount (formatFixed1 (pyOrZero none) ++ "\n"
        ++ joinLines (List.replicate c.height (blankRow c.width)) ++ "\n"
        ++ formatFixed1 (pyOrZero none)) = c.height + 2
    unfold lineCount
    repeat rw [count_nl_append]
    rw [hJ]
    have h0 : (formatFixed1 (pyOrZero none)).data.count '\n' = 0 := by decide
    have h1 : ("\n").data.count '\n' = 1 := by decide
    rw [h0, h1]
    omega

/-- Witness for C8 at width 2, height 3. -/
theorem spec_C8_witness :
    lineCount (ChartRenderer.render ⟨2, 3, true⟩ [] none none true) = 3 + 2
    ∧ ChartRenderer.render ⟨2, 3, true⟩ [] none none false = blankRow 2
    ∧ ChartRenderer.render_sparkline ⟨2, 3, true⟩ [] none
        = String.mk (List.replicate 2 '─')
    ∧ lineCount (ChartRenderer.render_network_split ⟨2, 3, true⟩ [] [] none true) = 3 + 2
    ∧ ChartRenderer.render_network_split ⟨2, 3, true⟩ [] [] none false = blankRow 2
    ∧ lineCount (ChartRenderer.render_stacked ⟨2, 3, true⟩ [] [] [] none none none true) = 3 + 2
    ∧ ChartRenderer.render_stacked ⟨2, 3, true⟩ [] [] [] none none none false = blankRow 2 :=
  spec_C8 ⟨2, 3, true⟩ (by norm_num)

/-- Counterexample to C7: with height 4, an explicit max of 1 and bottom
layer `[10]`, the single column's scaled layer heights are (40, 0, 0): all
4 rows are filled, so the number of filled rows (4) differs from the scaled
sum of the layer heights (40) by far more than 1. -/
theorem spec_C7_cex :
    ChartRenderer.render_stacked ⟨1, 4, true⟩ [10] [0] [0] none (some 0) (some 1) false
      = "█\n█\n█\n█"
    ∧ stackedScaled 4 (stackedRangeVal 1 [10] [0] [0] (some 0) (some 1))
        (stackedLatest 1 [10]) = [40]
    ∧ (List.range 4).countP (fun (r : Nat) => decide (stackedBand 40 0 0 (r : ℤ) ≠ ' ')) = 4
    ∧ ¬((40 - 4 : ℤ).natAbs ≤ 1) := ⟨by decide, by decide, by decide, by decide⟩

theorem stackedBand_ne_blank_iff (b m t r : ℤ) (hm : 0 ≤ m) (ht : 0 ≤ t) :
    (stackedBand b m t r ≠ ' ') ↔ r < b + m + t := by
  unfold stackedBand
  split_ifs with h1 h2 h3
  · exact ⟨fun _ => by omega, fun _ => by decide⟩
  · exact ⟨fun _ => by omega, fun _ => by decide⟩
  · exact ⟨fun _ => h3, fun _ => by decide⟩
  · exact ⟨fun hfalse => absurd rfl hfalse, fun hlt => absurd hlt h3⟩

/-- C7 (amended): in `render_stacked` every column is a block pattern in
the order bottom → middle → top → blank read from the baseline upward (the
band of row `r` is monotone in `r`), and the number of filled rows equals
`min(scaled sum of the three layer heights, height)` whenever the scaled
heights are nonnegative — hence it equals the scaled sum exactly when that
sum is at most `height` (always the case with derived min/max on
nonnegative inputs), while an explicit `max_value` below the data clamps
the column at `height`, where the deviation can exceed 1. -/
theorem spec_C7 (b m t : ℤ) (height : Nat) :
    (∀ r : ℤ, stackedBand b m t r = glyphOfRank (bandRank b m t r))
    ∧ (∀ r1 r2 : ℤ, r1 ≤ r2 → bandRank b m t r1 ≤ bandRank b m t r2)
    ∧ (0 ≤ b → 0 ≤ m → 0 ≤ t →
        (List.range height).countP (fun (r : Nat) => decide (stackedBand b m t (r : ℤ) ≠ ' '))
          = min (b + m + t).toNat height)
    ∧ (∀ (c : ChartRenderer) (bv mv tv : List ℚ) (width : Nat) (omin omax : Option ℚ),
        c.stackedChartLines bv mv tv width omin omax
          = (List.range c.height).map (fun (row : Nat) =>
              String.mk ((List.range width).map (fun (col : Nat) =>
                stackedBand
                  ((stackedScaled c.height (stackedRangeVal width bv mv tv omin omax)
                      (stackedLatest width bv)).getD col 0)
                  ((stackedScaled c.height (stackedRangeVal width bv mv tv omin omax)
                      (stackedLatest width mv)).getD col 0)
                  ((stackedScaled c.height (stackedRangeVal width bv mv tv omin omax)
                      (stackedLatest width tv)).getD col 0)
                  ((c.height : ℤ) - 1 - row))))) := by
  refine ⟨?_, ?_, ?_, fun c bv mv tv width omin omax => rfl⟩
  · intro r
    unfold stackedBand bandRank glyphOfRank
    split_ifs <;> rfl
  · intro r1 r2 h12
    unfold bandRank
    split_ifs <;> omega
  · intro hb hm ht
    induction height with
    | zero => simp
    | succ k ih =>
      rw [List.range_succ, List.countP_append, ih]
      rw [List.countP_cons, List.countP_nil]
      by_cases hk : (k : ℤ) < b + m + t
      · have : decide (stackedBand b m t (k : ℤ) ≠ ' ') = true := by
          rw [decide_eq_true_eq]
          exact (stackedBand_ne_blank_iff b m t k hm ht).mpr hk
        rw [this]
        simp only [if_true]
        omega
      · have : decide (stackedBand b m t (k : ℤ) ≠ ' ') = false := by
          rw [decide_eq_false_iff_not]
          intro hcon
          exact hk ((stackedBand_ne_blank_iff b m t k hm ht).mp hcon)
        rw [this]
        simp only [Bool.false_eq_true, if_false]
        omega

/-- Witness for C7: scaled heights (1, 1, 1) on a 4-row chart. -/
theorem spec_C7_witness :
    bandRank 1 1 1 0 ≤ bandRank 1 1 1 2
    ∧ (List.range 4).countP (fun (r : Nat) => decide (stackedBand 1 1 1 (r : ℤ) ≠ ' '))
        = min (1 + 1 + 1 : ℤ).toNat 4 :=
  ⟨(spec_C7 1 1 1 4).2.1 0 2 (by norm_num),
   (spec_C7 1 1 1 4).2.2.1 (by norm_num) (by norm_num) (by norm_num)⟩

theorem splitChartLines_length (c : ChartRenderer) (sA sB : List ℚ) (width : Nat) :
    (c.splitChartLines sA sB width).length = 2 * (c.height / 2) + 1 := by
  unfold ChartRenderer.splitChartLines
  dsimp only
  rw [List.length_append, List.length_append, List.length_map, List.length_range,
    List.length_map, List.length_range]
  simp
  omega

theorem splitChartLines_sep (c : ChartRenderer) (sA sB : List ℚ) (width : Nat) :
    (c.splitChartLines sA sB width).getD (c.height / 2) ""
      = String.mk (List.replicate width '─') := by
  unfold ChartRenderer.splitChartLines
  dsimp only
  rw [List.getD_append _ _ _ _ (by
    rw [List.length_append, List.length_map, List.length_range]
    simp)]
  rw [List.getD_append_right _ _ _ _ (by rw [List.length_map, List.length_range])]
  rw [List.length_map, List.length_range, Nat.sub_self]
  rfl

theorem splitChartLines_top (c : ChartRenderer) (sA sB : List ℚ) (width : Nat)
    (i col : Nat) (hi : i < c.height / 2) (hcol : col < width) :
    ((c.splitChartLines sA sB width).getD i "").data.getD col ' '
      = if (i : ℤ) < (splitScaled (c.height / 2) (splitPadded width sA)
            (splitMaxes width sA sB).1).getD col 0 then '█' else ' ' := by
  unfold ChartRenderer.splitChartLines
  dsimp only
  rw [List.getD_append _ _ _ _ (by
    rw [List.length_append, List.length_map, List.length_range]
    simp
    omega)]
  rw [List.getD_append _ _ _ _ (by rw [List.length_map, List.length_range]; omega)]
  rw [rangeMap_getD _ _ _ _ hi]
  show ((List.range width).map _).getD col ' ' = _
  rw [rangeMap_getD _ _ _ _ hcol]

theorem splitChartLines_bottom (c : ChartRenderer) (sA sB : List ℚ) (width : Nat)
    (i col : Nat) (hi : i < c.height / 2) (hcol : col < width) :
    ((c.splitChartLines sA sB width).getD (c.height / 2 + 1 + i) "").data.getD col ' '
      = if (i : ℤ) ≥ ((c.height / 2 : Nat) : ℤ) - (splitScaled (c.height / 2)
            (splitPadded width sB) (splitMaxes width sA sB).2).getD col 0
        then '█' else ' ' := by
  unfold ChartRenderer.splitChartLines
  dsimp only
  rw [List.getD_append_right _ _ _ _ (by
    simp only [List.length_append, List.length_map, List.length_range, List.length_singleton]
    omega)]
  simp only [List.length_append, List.length_map, List.length_range, List.length_singleton]
  have hsub : c.height / 2 + 1 + i - (c.height / 2 + 1) = i := by omega
  rw [hsub, rangeMap_getD _ _ _ _ hi]
  show ((List.range width).map _).getD col ' ' = _
  rw [rangeMap_getD _ _ _ _ hcol]

theorem splitChartLines_nf (c : ChartRenderer) (sA sB : List ℚ) (width : Nat) :
    ∀ s ∈ c.splitChartLines sA sB width, ('\n') ∉ s.data := by
  intro s hs
  unfold ChartRenderer.splitChartLines at hs
  dsimp only at hs
  rcases List.mem_append.mp hs with h1 | h2
  · rcases List.mem_append.mp h1 with h3 | h4
    · obtain ⟨row, _, rfl⟩ := List.mem_map.mp h3
      apply mk_nf
      intro ch hch
      obtain ⟨col, _, rfl⟩ := List.mem_map.mp hch
      split_ifs <;> decide
    · rw [List.mem_singleton.mp h4]
      apply mk_nf
      intro ch hch
      rw [List.eq_of_mem_replicate hch]
      decide
  · obtain ⟨row, _, rfl⟩ := List.mem_map.mp h2
    apply mk_nf
    intro ch hch
    obtain ⟨col, _, rfl⟩ := List.mem_map.mp hch
    split_ifs <;> decide

/-- Counterexample to C5: with height 3 (odd) and non-empty inputs, the
split render without the axis has 3 lines in total — 2 body rows plus the
separator — not `height` body rows plus 1 separator (which would be 4
lines). -/
theorem spec_C5_cex :
    ChartRenderer.render_network_split ⟨1, 3, true⟩ [1] [1] none false = " \n─\n "
    ∧ lineCount (ChartRenderer.render_network_split ⟨1, 3, true⟩ [1] [1] none false) = 3
    ∧ (3 : Nat) ≠ 3 + 1 := ⟨by decide, by decide, by decide⟩

/-- C5 (amended): when at least one input series is non-empty, the split
render's chart body consists of `height / 2` top rows, one `─` separator
row, and `height / 2` bottom rows — `2*(height/2) + 1` lines without the
axis (so exactly `height` body rows only when `height` is even) and
`2*(height/2) + 3` lines with the axis labels.  A top-half cell at row `i`,
column `col` is `█` iff `i <` the A-series (sent) scaled height at `col`
(bars grow downward from the top edge and depend only on the A series),
and a bottom-half cell is `█` iff `i ≥ height/2 −` the B-series (recv)
scaled height (bars grow upward from the bottom edge and depend only on
the B series); so A bars never appear below the separator nor B bars above
it.  When both series are empty the early return yields a single blank row
without any separator. -/
theorem spec_C5 (c : ChartRenderer) (sA sB : List ℚ) (w? : Option Nat)
    (hne : ¬(sA = [] ∧ sB = [])) :
    c.render_network_split sA sB w? false
        = joinLines (c.splitChartLines sA sB (w?.getD c.width))
    ∧ (c.splitChartLines sA sB (w?.getD c.width)).length = 2 * (c.height / 2) + 1
    ∧ (c.splitChartLines sA sB (w?.getD c.width)).getD (c.height / 2) ""
        = String.mk (List.replicate (w?.getD c.width) '─')
    ∧ (∀ i col, i < c.height / 2 → col < w?.getD c.width →
        ((c.splitChartLines sA sB (w?.getD c.width)).getD i "").data.getD col ' '
          = if (i : ℤ) < (splitScaled (c.height / 2) (splitPadded (w?.getD c.width) sA)
                (splitMaxes (w?.getD c.width) sA sB).1).getD col 0 then '█' else ' ')
    ∧ (∀ i col, i < c.height / 2 → col < w?.getD c.width →
        List.getD (String.data ((c.splitChartLines sA sB (w?.getD c.width)).getD
              (c.height / 2 + 1 + i) "")) col ' '
          = if (i : ℤ) ≥ ((c.height / 2 : Nat) : ℤ) - (splitScaled (c.height / 2)
                (splitPadded (w?.getD c.width) sB)
                (splitMaxes (w?.getD c.width) sA sB).2).getD col 0 then '█' else ' ')
    ∧ lineCount (c.render_network_split sA sB w? false) = 2 * (c.height / 2) + 1
    ∧ lineCount (c.render_network_split sA sB w? true) = 2 * (c.height / 2) + 3
    ∧ (∀ w2? : Option Nat,
        c.render_network_split [] [] w2? false = blankRow (w2?.getD c.width)) := by
  have hjoin : c.render_network_split sA sB w? false
      = joinLines (c.splitChartLines sA sB (w?.getD c.width)) := by
    unfold ChartRenderer.render_network_split
    rw [if_neg hne]
    rfl
  have hLne : c.splitChartLines sA sB (w?.getD c.width) ≠ [] := by
    intro hnil
    have := splitChartLines_length c sA sB (w?.getD c.width)
    rw [hnil] at this
    simp at this
  refine ⟨hjoin, splitChartLines_length c sA sB _, splitChartLines_sep c sA sB _,
    fun i col hi hcol => splitChartLines_top c sA sB _ i col hi hcol,
    fun i col hi hcol => splitChartLines_bottom c sA sB _ i col hi hcol,
    ?_, ?_, fun w2? => ?_⟩
  · rw [hjoin, lineCount_joinLines _ hLne (splitChartLines_nf c sA sB _),
      splitChartLines_length]
  · have haxis : c.render_network_split sA sB w? true
        = joinLines ([pyRjust (formatFixed1 (splitMaxes (w?.getD c.width) sA sB).1)
              (max (formatFixed1 (splitMaxes (w?.getD c.width) sA sB).1).length
                (formatFixed1 (splitMaxes (w?.getD c.width) sA sB).2).length) ++ " │"]
            ++ ((c.splitChartLines sA sB (w?.getD c.width)).take (c.height / 2)).map
                (fun line => String.mk (List.replicate
                    (max (formatFixed1 (splitMaxes (w?.getD c.width) sA sB).1).length
                      (formatFixed1 (splitMaxes (w?.getD c.width) sA sB).2).length) ' ')
                  ++ " │" ++ line)
            ++ [String.mk (List.replicate
                  (max (formatFixed1 (splitMaxes (w?.getD c.width) sA sB).1).length
                    (formatFixed1 (splitMaxes (w?.getD c.width) sA sB).2).length) ' ')
                ++ " │"
                ++ (c.splitChartLines sA sB (w?.getD c.width)).getD (c.height / 2) ""]
            ++ ((c.splitChartLines sA sB (w?.getD c.width)).drop (c.height / 2 + 1)).map
                (fun line => String.mk (List.replicate
                    (max (formatFixed1 (splitMaxes (w?.getD c.width) sA sB).1).length
                      (formatFixed1 (splitMaxes (w?.getD c.width) sA sB).2).length) ' ')
                  ++ " │" ++ line)
            ++ [pyRjust (formatFixed1 (splitMaxes (w?.getD c.width) sA sB).2)
              (max (formatFixed1 (splitMaxes (w?.getD c.width) sA sB).1).length
                (formatFixed1 (splitMaxes (w?.getD c.width) sA sB).2).length) ++ " │"]) := by
      unfold ChartRenderer.render_network_split
      rw [if_neg hne]
      rfl
    rw [haxis, lineCount_joinLines]
    · have hL := splitChartLines_length c sA sB (w?.getD c.width)
      simp only [List.length_append, List.length_map, List.length_take, List.length_drop,
        List.length_singleton, hL]
      omega
    · simp
    · intro s hs
      have hpad : ('\n') ∉ (String.mk (List.replicate
          (max (formatFixed1 (splitMaxes (w?.getD c.width) sA sB).1).length
            (formatFixed1 (splitMaxes (w?.getD c.width) sA sB).2).length) ' ')).data := by
        apply mk_nf
        intro ch hch
        rw [List.eq_of_mem_replicate hch]
        decide
      rcases List.mem_append.mp hs with hs1 | hs5
      · rcases List.mem_append.mp hs1 with hs2 | hs4
        · rcases List.mem_append.mp hs2 with hs3 | hs3'
          · rcases List.mem_append.mp hs3 with hs0 | hs0'
            · rw [List.mem_singleton.mp hs0]
              exact append_nf _ _ (pyRjust_nf _ _ (formatFixed1_nf _)) (by decide)
            · obtain ⟨line, hline, rfl⟩ := List.mem_map.mp hs0'
              exact append_nf _ _ (append_nf _ _ hpad (by decide))
                (splitChartLines_nf c sA sB _ line (List.mem_of_mem_take hline))
          · rw [List.mem_singleton.mp hs3']
            apply append_nf _ _ (append_nf _ _ hpad (by decide))
            rw [splitChartLines_sep]
            apply mk_nf
            intro ch hch
            rw [List.eq_of_mem_replicate hch]
            decide
        · obtain ⟨line, hline, rfl⟩ := List.mem_map.mp hs4
          exact append_nf _ _ (append_nf _ _ hpad (by decide))
            (splitChartLines_nf c sA sB _ line (List.mem_of_mem_drop hline))
      · rw [List.mem_singleton.mp hs5]
        exact append_nf _ _ (pyRjust_nf _ _ (formatFixed1_nf _)) (by decide)
  · unfold ChartRenderer.render_network_split
    rw [if_pos ⟨rfl, rfl⟩]
    rfl

/-- Witness for C5: width 2, height 4, the 10 MB/s two-column pattern. -/
theorem spec_C5_witness :
    lineCount (ChartRenderer.render_network_split ⟨2, 4, true⟩ [10485760, 0]
        [0, 10485760] none false) = 2 * (4 / 2) + 1
    ∧ lineCount (ChartRenderer.render_network_split ⟨2, 4, true⟩ [10485760, 0]
        [0, 10485760] none true) = 2 * (4 / 2) + 3
    ∧ List.getD (String.data ((ChartRenderer.splitChartLines ⟨2, 4, true⟩ [10485760, 0]
            [0, 10485760] 2).getD 0 "")) 0 ' '
      = if (0 : ℤ) < (splitScaled (4 / 2) (splitPadded 2 [10485760, 0])
            (splitMaxes 2 [10485760, 0] [0, 10485760]).1).getD 0 0 then '█' else ' ' :=
  ⟨(spec_C5 ⟨2, 4, true⟩ [10485760, 0] [0, 10485760] none (by decide)).2.2.2.2.2.1,
   (spec_C5 ⟨2, 4, true⟩ [10485760, 0] [0, 10485760] none (by decide)).2.2.2.2.2.2.1,
   (spec_C5 ⟨2, 4, true⟩ [10485760, 0] [0, 10485760] none (by decide)).2.2.2.1 0 0
     (by decide) (by decide)⟩
